import Mathlib

/-!
Verification development for the AutoETER data-loading module
(`codes/dataloader.py`).  The Python source is shallowly embedded below:
pure index-building helpers become Lean functions, the rejection-sampling
loops become fuel-indexed recursions over an explicit random stream, and
raised Python exceptions become an explicit result constructor.
-/

namespace AutoETER

/-- A knowledge-graph fact `(head, relation, tail)`. -/
abbrev Triple := Nat × Nat × Nat

/-- Outcome of running a fragment of the Python code: a normal return, a
raised exception (we keep the message), or divergence.  `diverge` is
produced when the fuel bounding one of the unbounded `while` loops runs
out; it stands for the run not having terminated yet. -/
inductive PyResult (α : Type) where
  | ok (a : α)
  | raises (msg : String)
  | diverge
  deriving DecidableEq

namespace PyResult

/-- Sequencing of Python computations: exceptions and divergence
propagate. -/
def bind {α β : Type} : PyResult α → (α → PyResult β) → PyResult β
  | ok a, f => f a
  | raises m, _ => raises m
  | diverge, _ => diverge

/-- `true` exactly on a normal return. -/
def isOk {α : Type} : PyResult α → Bool
  | ok _ => true
  | _ => false

@[simp] theorem bind_ok {α β : Type} (a : α) (f : α → PyResult β) :
    (PyResult.ok a).bind f = f a := rfl

@[simp] theorem bind_raises {α β : Type} (m : String) (f : α → PyResult β) :
    (PyResult.raises m).bind f = PyResult.raises m := rfl

@[simp] theorem bind_diverge {α β : Type} (f : α → PyResult β) :
    (PyResult.diverge : PyResult α).bind f = PyResult.diverge := rfl

theorem bind_eq_ok {α β : Type} {x : PyResult α} {f : α → PyResult β} {b : β}
    (h : x.bind f = ok b) : ∃ a, x = ok a ∧ f a = ok b := by
  cases x with
  | ok a => exact ⟨a, rfl, h⟩
  | raises m => simp [bind] at h
  | diverge => simp [bind] at h

end PyResult

/-- The global numpy random stream, modelled as an infinite sequence of
naturals together with a cursor.  Each call to a numpy sampling routine
consumes a contiguous block of the stream. -/
structure Rng where
  stream : Nat → Nat
  pos : Nat

/-- `np.random.randint(n, size=size)`: `size` uniform draws from
`[0, n)`.  A raw stream value is reduced mod `n`, which models the
support of `randint` exactly. -/
def np_randint (n size : Nat) (rng : Rng) : List Nat × Rng :=
  (((List.range size).map fun i => rng.stream (rng.pos + i) % n),
    ⟨rng.stream, rng.pos + size⟩)

/-! ### `TrainDataset.count_frequency` (dataloader.py lines 269-286) -/

/-- Key contributed by the `(head, relation)` slot of a fact. -/
def fKey1 (t : Triple) : Int × Int := ((t.1 : Int), (t.2.1 : Int))

/-- Key contributed by the `(tail, -relation-1)` slot of a fact. -/
def fKey2 (t : Triple) : Int × Int := ((t.2.2 : Int), -(t.2.1 : Int) - 1)

/-- One dictionary update of `count_frequency`: an absent key is seeded
with `start`, a present key is incremented. -/
def countStep (start : Nat) (c : Int × Int → Option Nat) (k : Int × Int) :
    Int × Int → Option Nat :=
  fun k' =>
    if k' = k then
      match c k with
      | none => some start
      | some n => some (n + 1)
    else c k'

/-- `TrainDataset.count_frequency(triples, start)`: fold the two key
updates of every fact over the dictionary (modelled as a partial map). -/
def count_frequency (triples : List Triple) (start : Nat) :
    Int × Int → Option Nat :=
  triples.foldl
    (fun c t => countStep start (countStep start c (fKey1 t)) (fKey2 t))
    (fun _ => none)

/-- Number of key contributions of a key over the whole fact list (each
fact contributes its `fKey1` and its `fKey2`). -/
def keyOcc : List Triple → Int × Int → Nat
  | [], _ => 0
  | t :: ts, k =>
      (if k = fKey1 t then 1 else 0) + (if k = fKey2 t then 1 else 0) +
        keyOcc ts k

theorem fKey1_ne_fKey2 (t t' : Triple) : fKey1 t ≠ fKey2 t' := by
  intro h
  have h2 : (t.2.1 : Int) = -(t'.2.1 : Int) - 1 := congrArg Prod.snd h
  omega

/-- Running characterisation of the `count_frequency` fold, generalised
over the accumulator dictionary. -/
theorem count_frequency_foldl (start : Nat) (ts : List Triple)
    (c : Int × Int → Option Nat) (k : Int × Int) :
    (ts.foldl
        (fun c t => countStep start (countStep start c (fKey1 t)) (fKey2 t))
        c) k =
      match c k with
      | some n => some (n + keyOcc ts k)
      | none =>
          if keyOcc ts k = 0 then none
          else some (start + keyOcc ts k - 1) := by
  induction ts generalizing c with
  | nil =>
    simp only [List.foldl_nil, keyOcc]
    cases c k <;> simp
  | cons t ts ih =>
    have hne : fKey1 t ≠ fKey2 t := fKey1_ne_fKey2 t t
    simp only [List.foldl_cons]
    rw [ih]
    by_cases h1 : k = fKey1 t <;> by_cases h2 : k = fKey2 t
    · exact absurd (h1.symm.trans h2) hne
    · subst h1
      simp only [keyOcc, if_pos rfl, if_neg h2, countStep, if_neg hne]
      cases hc : c (fKey1 t) with
      | none =>
        simp only [hc, if_true]
        rw [if_neg (by omega)]
        congr 1
        omega
      | some n =>
        simp only [hc, if_true]
        congr 1
        omega
    · subst h2
      simp only [keyOcc, if_pos rfl,
        if_neg (fun h : fKey2 t = fKey1 t => hne h.symm), countStep,
        if_pos rfl]
      cases hc : c (fKey2 t) with
      | none =>
        simp only [hc, if_true]
        rw [if_neg (by omega)]
        congr 1
        omega
      | some n =>
        simp only [hc, if_true]
        congr 1
        omega
    · simp only [keyOcc, if_neg h1, if_neg h2, countStep]
      cases hc : c k <;> simp [hc]

/-- Closed form of `count_frequency`: a key absent from the fact list is
absent from the table; a key occurring `n ≥ 1` times is mapped to
`start + n - 1` (seeded with `start` on the first occurrence, `+1` on
each later one). -/
theorem count_frequency_eq (start : Nat) (ts : List Triple) (k : Int × Int) :
    count_frequency ts start k =
      if keyOcc ts k = 0 then none else some (start + keyOcc ts k - 1) := by
  rw [count_frequency, count_frequency_foldl]

theorem keyOcc_pos_of_mem {ts : List Triple} {t : Triple} (h : t ∈ ts) :
    0 < keyOcc ts (fKey1 t) := by
  induction ts with
  | nil => cases h
  | cons t' ts ih =>
    rcases List.mem_cons.mp h with h | h
    · subst h; simp [keyOcc]
    · have := ih h
      simp only [keyOcc]
      omega

/-- Membership in the fact list makes the `(head, relation)` key present
in the frequency table. -/
theorem count_frequency_fKey1_isSome {ts : List Triple} {t : Triple}
    (h : t ∈ ts) : (count_frequency ts 4 (fKey1 t)).isSome := by
  rw [count_frequency_eq]
  have h0 : keyOcc ts (fKey1 t) ≠ 0 :=
    Nat.pos_iff_ne_zero.mp (keyOcc_pos_of_mem h)
  simp [h0]

theorem keyOcc_fKey2_pos_of_mem {ts : List Triple} {t : Triple} (h : t ∈ ts) :
    0 < keyOcc ts (fKey2 t) := by
  induction ts with
  | nil => cases h
  | cons t' ts ih =>
    rcases List.mem_cons.mp h with h | h
    · subst h; simp [keyOcc]
    · have := ih h
      simp only [keyOcc]
      omega

/-- Membership in the fact list makes the `(tail, -relation-1)` key
present in the frequency table. -/
theorem count_frequency_fKey2_isSome {ts : List Triple} {t : Triple}
    (h : t ∈ ts) : (count_frequency ts 4 (fKey2 t)).isSome := by
  rw [count_frequency_eq]
  have h0 : keyOcc ts (fKey2 t) ≠ 0 :=
    Nat.pos_iff_ne_zero.mp (keyOcc_fKey2_pos_of_mem h)
  simp [h0]

/-! ### `TrainDataset.get_true_head_and_tail` (lines 288-311)

For every key the dictionary holds the per-key appended entries
deduplicated through `set(...)`; only membership in the resulting array
is relied on downstream, so the array is modelled as the deduplicated
list of matching entries in order of first appearance. -/

/-- `true_head[(relation, tail)]`: deduplicated heads of all facts with
this relation and tail. -/
def true_head (triples : List Triple) (r t : Nat) : List Nat :=
  ((triples.filter fun x => decide (x.2.1 = r ∧ x.2.2 = t)).map (·.1)).dedup

/-- `true_tail[(head, relation)]`: deduplicated tails of all facts with
this head and relation. -/
def true_tail (triples : List Triple) (h r : Nat) : List Nat :=
  ((triples.filter fun x => decide (x.1 = h ∧ x.2.1 = r)).map (·.2.2)).dedup

theorem mem_true_head {triples : List Triple} {r t e : Nat} :
    e ∈ true_head triples r t ↔ (e, r, t) ∈ triples := by
  simp only [true_head, List.mem_dedup, List.mem_map, List.mem_filter,
    decide_eq_true_eq]
  constructor
  · rintro ⟨⟨a, b, c⟩, ⟨hm, hb, hc⟩, ha⟩
    simp only at ha hb hc
    subst ha; subst hb; subst hc; exact hm
  · intro hm
    exact ⟨(e, r, t), ⟨hm, rfl, rfl⟩, rfl⟩

theorem mem_true_tail {triples : List Triple} {h r e : Nat} :
    e ∈ true_tail triples h r ↔ (h, r, e) ∈ triples := by
  simp only [true_tail, List.mem_dedup, List.mem_map, List.mem_filter,
    decide_eq_true_eq]
  constructor
  · rintro ⟨⟨a, b, c⟩, ⟨hm, hb, hc⟩, ha⟩
    simp only at ha hb hc
    subst ha; subst hb; subst hc; exact hm
  · intro hm
    exact ⟨(h, r, e), ⟨hm, rfl, rfl⟩, rfl⟩

/-! ### `TrainDataset.get_relation2headtail` (lines 313-332) -/

/-- `rel_head[relation]`: deduplicated heads of all facts using this
relation (the source deduplicates both while appending and through a
final `set(...)`; membership is what matters downstream). -/
def rel_head (triples : List Triple) (r : Nat) : List Nat :=
  ((triples.filter fun x => decide (x.2.1 = r)).map (·.1)).dedup

/-- `rel_tail[relation]`: deduplicated tails of all facts using this
relation. -/
def rel_tail (triples : List Triple) (r : Nat) : List Nat :=
  ((triples.filter fun x => decide (x.2.1 = r)).map (·.2.2)).dedup

theorem mem_rel_head {triples : List Triple} {r e : Nat} :
    e ∈ rel_head triples r ↔ ∃ t, (e, r, t) ∈ triples := by
  simp only [rel_head, List.mem_dedup, List.mem_map, List.mem_filter,
    decide_eq_true_eq]
  constructor
  · rintro ⟨⟨a, b, c⟩, ⟨hm, hb⟩, ha⟩
    simp only at ha hb
    subst ha; subst hb; exact ⟨c, hm⟩
  · rintro ⟨t, hm⟩
    exact ⟨(e, r, t), ⟨hm, rfl⟩, rfl⟩

theorem mem_rel_tail {triples : List Triple} {r e : Nat} :
    e ∈ rel_tail triples r ↔ ∃ h, (h, r, e) ∈ triples := by
  simp only [rel_tail, List.mem_dedup, List.mem_map, List.mem_filter,
    decide_eq_true_eq]
  constructor
  · rintro ⟨⟨a, b, c⟩, ⟨hm, hb⟩, hc⟩
    simp only at hc hb
    subst hc; subst hb; exact ⟨a, hm⟩
  · rintro ⟨h, hm⟩
    exact ⟨(h, r, e), ⟨hm, rfl⟩, rfl⟩

/-! ### negative entity sampling (`__getitem__`, lines 42-65)

`np.in1d(x, s, assume_unique=True, invert=True)` is modelled as
element-wise non-membership in `s` (`assume_unique` is a performance
hint; it only changes which of several equal draws survive, which no
property below depends on). -/

/-- The `while negative_sample_size < self.negative_sample_size` loop.
`accList` is `negative_sample_list`, `accSize` the running survivor
count.  One fuel unit per iteration; fuel exhaustion models the loop not
having terminated. -/
def negSampleLoop (triples : List Triple) (nentity negSize : Nat)
    (mode : String) (h r t : Nat) :
    Nat → List (List Nat) → Nat → Rng → PyResult (List (List Nat) × Rng)
  | fuel, accList, accSize, rng =>
    if accSize < negSize then
      match fuel with
      | 0 => .diverge
      | fuel' + 1 =>
        if mode = "head-batch" then
          negSampleLoop triples nentity negSize mode h r t fuel'
            (accList ++
              [(np_randint nentity (negSize * 2) rng).1.filter fun e =>
                  decide (e ∉ true_head triples r t)])
            (accSize +
              ((np_randint nentity (negSize * 2) rng).1.filter fun e =>
                  decide (e ∉ true_head triples r t)).length)
            (np_randint nentity (negSize * 2) rng).2
        else if mode = "tail-batch" then
          negSampleLoop triples nentity negSize mode h r t fuel'
            (accList ++
              [(np_randint nentity (negSize * 2) rng).1.filter fun e =>
                  decide (e ∉ true_tail triples h r)])
            (accSize +
              ((np_randint nentity (negSize * 2) rng).1.filter fun e =>
                  decide (e ∉ true_tail triples h r)).length)
            (np_randint nentity (negSize * 2) rng).2
        else .raises ("Training batch mode " ++ mode ++ " not supported")
    else .ok (accList, rng)

/-- The negative-pair loop (lines 123-146): same shape, filtering
against the relation's entity pool instead. -/
def negPairLoop (triples : List Triple) (nentity pairSize : Nat)
    (mode : String) (r : Nat) :
    Nat → List (List Nat) → Nat → Rng → PyResult (List (List Nat) × Rng)
  | fuel, accList, accSize, rng =>
    if accSize < pairSize then
      match fuel with
      | 0 => .diverge
      | fuel' + 1 =>
        if mode = "head-batch" then
          negPairLoop triples nentity pairSize mode r fuel'
            (accList ++
              [(np_randint nentity (pairSize * 2) rng).1.filter fun e =>
                  decide (e ∉ rel_head triples r)])
            (accSize +
              ((np_randint nentity (pairSize * 2) rng).1.filter fun e =>
                  decide (e ∉ rel_head triples r)).length)
            (np_randint nentity (pairSize * 2) rng).2
        else if mode = "tail-batch" then
          negPairLoop triples nentity pairSize mode r fuel'
            (accList ++
              [(np_randint nentity (pairSize * 2) rng).1.filter fun e =>
                  decide (e ∉ rel_tail triples r)])
            (accSize +
              ((np_randint nentity (pairSize * 2) rng).1.filter fun e =>
                  decide (e ∉ rel_tail triples r)).length)
            (np_randint nentity (pairSize * 2) rng).2
        else .raises ("Training batch mode " ++ mode ++ " not supported")
    else .ok (accList, rng)

/-- `np.concatenate` over a Python list of arrays: raises on an empty
list of arrays, otherwise concatenates. -/
def npConcat (l : List (List Nat)) : PyResult (List Nat) :=
  if l = [] then .raises "need at least one array to concatenate"
  else .ok l.flatten

/-- `np.tile(pool, reps)`. -/
def np_tile (pool : List Nat) (reps : Nat) : List Nat :=
  (List.replicate reps pool).flatten

/-- `np.random.choice(pool, size=size)`: `size` uniform index draws into
`pool`, with replacement; raises on an empty pool. -/
def np_choice (pool : List Nat) (size : Nat) (rng : Rng) :
    PyResult (List Nat × Rng) :=
  if pool.length = 0 then .raises "a must be non-empty"
  else
    .ok (((List.range size).map fun i =>
        pool.getD (rng.stream (rng.pos + i) % pool.length) 0),
      ⟨rng.stream, rng.pos + size⟩)

/-! ### path-evidence block (`__getitem__`, lines 67-117) -/

/-- Python float values of this module, modelled as exact fractions (no
claim depends on rounding; every value in scope is a product/sum of
decimal literals and inputs).  `den` is positive for every value the
code builds.  Fractions are not normalised, so `PyFloat` equality is
equality of representations; the code only ever compares reliabilities
by order, which `leB` decides by cross-multiplication. -/
structure PyFloat where
  num : Int
  den : Nat
  deriving DecidableEq

instance : OfNat PyFloat 0 := ⟨⟨0, 1⟩⟩

/-- Multiplication of exact fractions. -/
def PyFloat.mul (a b : PyFloat) : PyFloat := ⟨a.num * b.num, a.den * b.den⟩

/-- Addition of exact fractions. -/
def PyFloat.add (a b : PyFloat) : PyFloat :=
  ⟨a.num * b.den + b.num * a.den, a.den * b.den⟩

/-- `a ≤ b` on exact fractions with positive denominators. -/
def PyFloat.leB (a b : PyFloat) : Bool :=
  decide (a.num * (b.den : Int) ≤ b.num * (a.den : Int))

/-- `' '.join(map(str, rel_path))`: the string key of a relation path. -/
def pathStr (p : List Nat) : String :=
  String.intercalate " " (p.map toString)

/-- Lookup in the `path_confidence` side table (a Python dict keyed by
`(path_str, relation)`), modelled as an association list. -/
def lookupConfidence (tbl : List ((String × Nat) × PyFloat)) (key : String × Nat) :
    Option PyFloat :=
  (tbl.find? fun kv => decide (kv.1 = key)).map (·.2)

/-- Reliability of one `(rel_path, prob)` candidate (lines 75-79):
`confidence` defaults to `0.0` when the key is absent, is floored through
`0.99*confidence + 0.01`, and multiplies the occurrence probability. -/
def pathReliability (conf : List ((String × Nat) × PyFloat)) (relation : Nat)
    (pp : List Nat × PyFloat) : PyFloat :=
  PyFloat.mul pp.2
    (PyFloat.add
      (PyFloat.mul ⟨99, 100⟩
        ((lookupConfidence conf (pathStr pp.1, relation)).getD ⟨0, 1⟩))
      ⟨1, 100⟩)

/-- `weak_positive`: concatenation of the relation ids of ALL candidate
paths, in order (line 73 runs over every candidate, before any sorting
or truncation). -/
def weakPositive (cand : List (List Nat × PyFloat)) : List Nat :=
  (cand.map (·.1)).flatten

/-- The `rel_paths` list of `(path, reliability)` pairs (the source
appends the reliability as the last element of the path list; `[:-1]`
and `[-1]` recover the two components, modelled here as a pair). -/
def relPathsWithRel (conf : List ((String × Nat) × PyFloat)) (relation : Nat)
    (cand : List (List Nat × PyFloat)) : List (List Nat × PyFloat) :=
  cand.map fun pp => (pp.1, pathReliability conf relation pp)

/-- Stable insertion into a descending-by-reliability list: the inserted
element (which precedes the remaining elements in the original order)
goes in front of the first element whose reliability does not exceed its
own. -/
def ordInsertDesc (x : List Nat × PyFloat) :
    List (List Nat × PyFloat) → List (List Nat × PyFloat)
  | [] => [x]
  | y :: ys =>
      if PyFloat.leB y.2 x.2 then x :: y :: ys else y :: ordInsertDesc x ys

/-- `rel_paths.sort(key=lambda x: x[-1], reverse=True)`: Python's sort
with `reverse=True` is a stable descending sort; right-to-left insertion
with `ordInsertDesc` realises exactly that order. -/
def sortRelPaths (l : List (List Nat × PyFloat)) :
    List (List Nat × PyFloat) :=
  l.foldr ordInsertDesc []

/-- Lines 91-95: right-pad a kept path with `-1` to `max_steps` slots,
or truncate it to `max_steps`. -/
def padTruncRow (maxSteps : Nat) (p : List Nat) : List Int :=
  if (p.map Int.ofNat).length < maxSteps then
    p.map Int.ofNat ++
      List.replicate (maxSteps - (p.map Int.ofNat).length) (-1)
  else if maxSteps < (p.map Int.ofNat).length then
    (p.map Int.ofNat).take maxSteps
  else p.map Int.ofNat

/-- Element type of a torch tensor, as far as this module distinguishes
them: `torch.zeros(...)` produces the default float dtype,
`torch.LongTensor(...)` produces int64. -/
inductive DType where
  | float32
  | int64
  deriving DecidableEq

/-- A 2-D torch tensor: element dtype plus its rows. -/
structure PyTensor2 where
  dtype : DType
  rows : List (List Int)
  deriving DecidableEq

/-- Output of the path block: the `rel_paths_for_batch` tensor and the
`probs_for_batch` reliabilities. -/
structure PathBlock where
  relPathsT : PyTensor2
  probs : List PyFloat
  deriving DecidableEq

/-- Lines 83-103: the `len(rel_paths)==0` branch builds
`torch.zeros(max_n_cand, max_steps) - 1` (float dtype) and
`torch.zeros(max_n_cand)`; the non-empty branch keeps the first
`min(len, max_n_cand)` sorted candidates, pads/truncates each row, pads
the row and reliability lists to `max_n_cand`, and converts through
`torch.LongTensor` (int64 dtype). -/
def pathTensorBlock (maxCand maxSteps : Nat) (sorted : List (List Nat × PyFloat)) :
    PathBlock :=
  if sorted.length = 0 then
    { relPathsT :=
        ⟨.float32, List.replicate maxCand (List.replicate maxSteps (-1))⟩,
      probs := List.replicate maxCand 0 }
  else
    { relPathsT := ⟨.int64,
        if ((sorted.take maxCand).map fun rp =>
            padTruncRow maxSteps rp.1).length ≠ maxCand then
          ((sorted.take maxCand).map fun rp => padTruncRow maxSteps rp.1) ++
            List.replicate
              (maxCand -
                ((sorted.take maxCand).map fun rp =>
                    padTruncRow maxSteps rp.1).length)
              (List.replicate maxSteps (-1))
        else (sorted.take maxCand).map fun rp => padTruncRow maxSteps rp.1⟩,
      probs :=
        if ((sorted.take maxCand).map (·.2)).length ≠ maxCand then
          ((sorted.take maxCand).map (·.2)) ++
            List.replicate
              (maxCand - ((sorted.take maxCand).map (·.2)).length) (0 : PyFloat)
        else (sorted.take maxCand).map (·.2) }

/-- The negative-relation rejection loop (lines 106-116): draw 4 uniform
relation ids, keep those outside the exclusion list, exit as soon as at
least one survives. -/
def negRelLoop (nrelation : Nat) (excl : List Nat) :
    Nat → Rng → PyResult (List Nat × Rng)
  | 0, _ => .diverge
  | fuel + 1, rng =>
    if 1 ≤ ((np_randint nrelation 4 rng).1.filter fun e =>
        decide (e ∉ excl)).length then
      .ok ((np_randint nrelation 4 rng).1.filter fun e => decide (e ∉ excl),
        (np_randint nrelation 4 rng).2)
    else negRelLoop nrelation excl fuel (np_randint nrelation 4 rng).2

/-! ### the composed `TrainDataset.__getitem__` (lines 35-241) -/

/-- The optional `multi_path` constructor argument
`(path_probs, path_confidence, max_n_cand, max_steps)`. -/
structure MultiPathCfg where
  pathProbs : List (List (List Nat × PyFloat))
  pathConfidence : List ((String × Nat) × PyFloat)
  maxNCand : Nat
  maxSteps : Nat
  deriving DecidableEq

/-- A `TrainDataset` with its configuration. -/
structure TrainCfg where
  triples : List Triple
  nentity : Nat
  nrelation : Nat
  negSize : Nat
  pairSize : Nat
  mode : String
  multiPath : Option MultiPathCfg

/-- The tuple returned by `TrainDataset.__getitem__`.  The three trailing
fields are present exactly when `multi_path` is enabled.
`subsamplingCount` is the integer `count[(h,r)] + count[(t,-r-1)]`; the
source immediately maps it through `torch.sqrt(1/·)`, which no claim
touches. -/
structure TrainItem where
  positive : Triple
  negatives : List Nat
  subsamplingCount : Nat
  mode : String
  posPairs : List Nat
  negPairs : List Nat
  negRelation : Option (List Nat)
  relPaths : Option PyTensor2
  probs : Option (List PyFloat)
  deriving DecidableEq

/-- Lines 67-117 as one unit: build the weak-positive list, the sorted
candidate list, the path tensors, and sample the negative relation.
Returns `none` (and leaves the stream untouched) when `multi_path` is
disabled. -/
def multiBlock (cfg : TrainCfg) (idx relation : Nat) (fuel : Nat)
    (rng : Rng) : PyResult (Option (PathBlock × List Nat) × Rng) :=
  match cfg.multiPath with
  | none => .ok (none, rng)
  | some mp =>
    match mp.pathProbs[idx]? with
    | none => .raises "IndexError: list index out of range"
    | some cand =>
      (negRelLoop cfg.nrelation (relation :: weakPositive cand) fuel rng).bind
        fun sr =>
          .ok (some
            (pathTensorBlock mp.maxNCand mp.maxSteps
                (sortRelPaths (relPathsWithRel mp.pathConfidence relation cand)),
              sr.1.take 1), sr.2)

/-- Lines 154-169: positive pair sampling.  The pool is tiled
`pair_sample_size` times when it is smaller than the requested size;
there is no `else` branch for an unrecognised mode in the source (the
earlier loops already raised), which Python would surface as an unbound
local at line 235. -/
def posPairDispatch (cfg : TrainCfg) (relation : Nat) (rng : Rng) :
    PyResult (List Nat × Rng) :=
  if cfg.mode = "head-batch" then
    if (rel_head cfg.triples relation).length < cfg.pairSize then
      np_choice (np_tile (rel_head cfg.triples relation) cfg.pairSize)
        cfg.pairSize rng
    else np_choice (rel_head cfg.triples relation) cfg.pairSize rng
  else if cfg.mode = "tail-batch" then
    if (rel_tail cfg.triples relation).length < cfg.pairSize then
      np_choice (np_tile (rel_tail cfg.triples relation) cfg.pairSize)
        cfg.pairSize rng
    else np_choice (rel_tail cfg.triples relation) cfg.pairSize rng
  else .raises "UnboundLocalError: local variable referenced before assignment"

/-- `TrainDataset.__getitem__(idx)`.  Stages appear in source order:
triple lookup, subsampling counts (line 39), the entity-negative loop
(45-65), the optional path block (67-117), `np.concatenate` + truncation
of the entity negatives (119), the negative-pair loop (126-148), and
positive-pair sampling (154-169). -/
def trainGetitem (cfg : TrainCfg) (idx fuel : Nat) (rng : Rng) :
    PyResult TrainItem :=
  match cfg.triples[idx]? with
  | none => .raises "IndexError: list index out of range"
  | some pos =>
    match count_frequency cfg.triples 4 (fKey1 pos),
        count_frequency cfg.triples 4 (fKey2 pos) with
    | some c1, some c2 =>
      (negSampleLoop cfg.triples cfg.nentity cfg.negSize cfg.mode
          pos.1 pos.2.1 pos.2.2 fuel [] 0 rng).bind fun s1 =>
      (multiBlock cfg idx pos.2.1 fuel s1.2).bind fun s2 =>
      (npConcat s1.1).bind fun negAll =>
      (negPairLoop cfg.triples cfg.nentity cfg.pairSize cfg.mode
          pos.2.1 fuel [] 0 s2.2).bind fun s3 =>
      (npConcat s3.1).bind fun negPairAll =>
      (posPairDispatch cfg pos.2.1 s3.2).bind fun s4 =>
      .ok
        { positive := pos
          negatives := negAll.take cfg.negSize
          subsamplingCount := c1 + c2
          mode := cfg.mode
          posPairs := s4.1
          negPairs := negPairAll.take cfg.pairSize
          negRelation := s2.1.map (·.2)
          relPaths := s2.1.map (·.1.relPathsT)
          probs := s2.1.map (·.1.probs) }
    | _, _ => .raises "KeyError"

/-! ### `TestDataset.__getitem__` (lines 334-366) -/

/-- The `tmp` list of `(filter_flag, candidate_entity)` pairs built by
`TestDataset.__getitem__` for one fact, including the forced
`tmp[answer] = (0, answer)` overwrite.  (Python would raise an
IndexError on the overwrite if the answer entity were `≥ nentity`;
`List.set` is a no-op there instead, a case no claim exercises.) -/
def testTmp (allTrue : List Triple) (nentity : Nat) (mode : String)
    (tr : Triple) : List (Int × Int) :=
  if mode = "head-batch" then
    ((List.range nentity).map fun i =>
        if (i, tr.2.1, tr.2.2) ∈ allTrue then ((-1 : Int), (tr.1 : Int))
        else ((0 : Int), (i : Int))).set
      tr.1 ((0 : Int), (tr.1 : Int))
  else
    ((List.range nentity).map fun i =>
        if (tr.1, tr.2.1, i) ∈ allTrue then ((-1 : Int), (tr.2.2 : Int))
        else ((0 : Int), (i : Int))).set
      tr.2.2 ((0 : Int), (tr.2.2 : Int))

/-- The tuple returned by `TestDataset.__getitem__`: the positive fact,
the candidate column `tmp[:, 1]`, the filter column `tmp[:, 0]` (cast to
float downstream), and the mode tag. -/
structure TestItem where
  positive : Triple
  negativeSample : List Int
  filterBias : List Int
  mode : String
  deriving DecidableEq

/-- `TestDataset.__getitem__`: mode dispatch with an immediate
`ValueError` on an unrecognised mode (line 358). -/
def testGetitem (allTrue : List Triple) (nentity : Nat) (mode : String)
    (tr : Triple) : PyResult TestItem :=
  if mode = "head-batch" ∨ mode = "tail-batch" then
    let tmp := testTmp allTrue nentity mode tr
    .ok { positive := tr, negativeSample := tmp.map (·.2),
          filterBias := tmp.map (·.1), mode }
  else .raises ("negative batch mode " ++ mode ++ " not supported")

/-! ### `collate_fn_multi_path` (lines 254-267), the `rel_paths` stack -/

/-- `torch.stack` over 2-D tensors: requires every tensor to share one
dtype (torch raises a RuntimeError otherwise); sizes are not modelled
because every claim already fixes them. -/
def torchStack2 (ts : List PyTensor2) : PyResult (List (List (List Int)) × DType) :=
  match ts with
  | [] => .raises "stack expects a non-empty TensorList"
  | t :: rest =>
    if rest.all fun s => decide (s.dtype = t.dtype) then
      .ok (ts.map (·.rows), t.dtype)
    else .raises "stack expects each tensor to be equal dtype"

/-- Line 264 of `collate_fn_multi_path`:
`torch.stack([_[7] for _ in data], dim=0)` over the per-example
`rel_paths_for_batch` tensors. -/
def collateRelPaths (data : List TrainItem) :
    PyResult (List (List (List Int)) × DType) :=
  match data.mapM (·.relPaths) with
  | none => .raises "IndexError: tuple index out of range"
  | some ts => torchStack2 ts

/-! ### `BidirectionalOneShotIterator` (lines 376-397) -/

/-- Iterator state: the two underlying (finite, cyclically restarted)
batch sources, the step counter, and each side's position in its
source. -/
structure BiIter (α : Type) where
  headData : List α
  tailData : List α
  step : Nat
  headIdx : Nat
  tailIdx : Nat

/-- Fresh iterator (`step = 0`, both cyclic views at their start). -/
def initBI {α : Type} (hd tl : List α) : BiIter α :=
  ⟨hd, tl, 0, 0, 0⟩

/-- `__next__`: increment `step`; on even `step` pull from the head-side
cyclic view, otherwise from the tail side.  `one_shot_iterator` restarts
its finite source forever, modelled by indexing mod the source length;
`none` arises only from an empty source (whose `one_shot_iterator`
never yields). -/
def BiIter.next {α : Type} (s : BiIter α) : Option (α × BiIter α) :=
  if (s.step + 1) % 2 = 0 then
    match s.headData[s.headIdx % s.headData.length]? with
    | some a =>
        some (a,
          ⟨s.headData, s.tailData, s.step + 1, s.headIdx + 1, s.tailIdx⟩)
    | none => none
  else
    match s.tailData[s.tailIdx % s.tailData.length]? with
    | some a =>
        some (a,
          ⟨s.headData, s.tailData, s.step + 1, s.headIdx, s.tailIdx + 1⟩)
    | none => none

/-- Iterator state after `n` successful pulls. -/
def pullsTo {α : Type} (hd tl : List α) : Nat → Option (BiIter α)
  | 0 => some (initBI hd tl)
  | n + 1 => (pullsTo hd tl n).bind fun s => (s.next).map (·.2)

/-- Value of the `n`-th pull, `n` counted from 1. -/
def nthPull {α : Type} (hd tl : List α) : Nat → Option α
  | 0 => none
  | n + 1 => (pullsTo hd tl n).bind fun s => (s.next).map (·.1)

/-! ### properties of the sampling stages -/

theorem mem_np_randint {n size : Nat} {rng : Rng} {e : Nat}
    (he : e ∈ (np_randint n size rng).1) (hn : 0 < n) : e < n := by
  simp only [np_randint, List.mem_map, List.mem_range] at he
  obtain ⟨i, _, rfl⟩ := he
  exact Nat.mod_lt _ hn

theorem negSampleLoop_ok {triples : List Triple} {nentity negSize : Nat}
    {mode : String} {h r t : Nat} :
    ∀ {fuel : Nat} {accList : List (List Nat)} {accSize : Nat} {rng : Rng}
      {res : List (List Nat) × Rng},
      negSampleLoop triples nentity negSize mode h r t fuel accList accSize
          rng = .ok res →
      accSize = accList.flatten.length →
      negSize ≤ res.1.flatten.length ∧
        ∀ e ∈ res.1.flatten, e ∈ accList.flatten ∨
          ((0 < nentity → e < nentity) ∧
            ((mode = "head-batch" ∧ e ∉ true_head triples r t) ∨
             (mode = "tail-batch" ∧ e ∉ true_tail triples h r))) := by
  intro fuel
  induction fuel with
  | zero =>
    intro accList accSize rng res hok hinv
    rw [negSampleLoop] at hok
    split at hok
    · exact absurd hok (by simp)
    · rename_i hge
      cases hok
      exact ⟨hinv ▸ Nat.not_lt.mp hge, fun e he => Or.inl he⟩
  | succ fuel ih =>
    intro accList accSize rng res hok hinv
    rw [negSampleLoop] at hok
    split at hok
    · split at hok
      · -- head-batch iteration
        rename_i hmode
        have hstep := ih hok (by simp [hinv])
        refine ⟨hstep.1, fun e he => ?_⟩
        rcases hstep.2 e he with hin | hnew
        · rw [List.flatten_append] at hin
          rcases List.mem_append.mp hin with hin | hin
          · exact Or.inl hin
          · simp only [List.flatten_cons, List.flatten_nil,
              List.append_nil] at hin
            have hf := List.mem_filter.mp hin
            refine Or.inr ⟨fun hn => mem_np_randint hf.1 hn, Or.inl ⟨hmode, ?_⟩⟩
            simpa using hf.2
        · exact Or.inr hnew
      · split at hok
        · -- tail-batch iteration
          rename_i hmode
          have hstep := ih hok (by simp [hinv])
          refine ⟨hstep.1, fun e he => ?_⟩
          rcases hstep.2 e he with hin | hnew
          · rw [List.flatten_append] at hin
            rcases List.mem_append.mp hin with hin | hin
            · exact Or.inl hin
            · simp only [List.flatten_cons, List.flatten_nil,
                List.append_nil] at hin
              have hf := List.mem_filter.mp hin
              refine Or.inr ⟨fun hn => mem_np_randint hf.1 hn,
                Or.inr ⟨hmode, ?_⟩⟩
              simpa using hf.2
          · exact Or.inr hnew
        · exact absurd hok (by simp)
    · rename_i hge
      cases hok
      exact ⟨hinv ▸ Nat.not_lt.mp hge, fun e he => Or.inl he⟩

theorem negSampleLoop_ok_invalid {triples : List Triple}
    {nentity negSize : Nat} {mode : String} {h r t : Nat}
    (hm1 : mode ≠ "head-batch") (hm2 : mode ≠ "tail-batch") :
    ∀ {fuel : Nat} {accList : List (List Nat)} {accSize : Nat} {rng : Rng}
      {res : List (List Nat) × Rng},
      negSampleLoop triples nentity negSize mode h r t fuel accList accSize
          rng = .ok res →
      res.1 = accList := by
  intro fuel
  induction fuel with
  | zero =>
    intro accList accSize rng res hok
    rw [negSampleLoop] at hok
    split at hok
    · exact absurd hok (by simp)
    · cases hok; rfl
  | succ fuel ih =>
    intro accList accSize rng res hok
    rw [negSampleLoop] at hok
    split at hok
    all_goals
      first
        | (cases hok; rfl)
        | exact absurd hok (by simp)

theorem negSampleLoop_raises_invalid {triples : List Triple}
    {nentity negSize : Nat} {mode : String} {h r t : Nat}
    (hm1 : mode ≠ "head-batch") (hm2 : mode ≠ "tail-batch")
    (hpos : 0 < negSize) {fuel : Nat} (hf : 0 < fuel) (rng : Rng) :
    negSampleLoop triples nentity negSize mode h r t fuel [] 0 rng =
      .raises ("Training batch mode " ++ mode ++ " not supported") := by
  cases fuel with
  | zero => omega
  | succ fuel =>
    rw [negSampleLoop]
    rw [if_pos hpos, if_neg hm1, if_neg hm2]

theorem npConcat_ok {l : List (List Nat)} {res : List Nat}
    (h : npConcat l = .ok res) : l ≠ [] ∧ res = l.flatten := by
  rw [npConcat] at h
  split at h
  · exact absurd h (by simp)
  · cases h
    exact ⟨by assumption, rfl⟩

theorem negRelLoop_ok {nrelation : Nat} {excl : List Nat} :
    ∀ {fuel : Nat} {rng : Rng} {res : List Nat × Rng},
      negRelLoop nrelation excl fuel rng = .ok res →
      1 ≤ res.1.length ∧
        ∀ e ∈ res.1, (0 < nrelation → e < nrelation) ∧ e ∉ excl := by
  intro fuel
  induction fuel with
  | zero =>
    intro rng res hok
    exact absurd hok (by simp [negRelLoop])
  | succ fuel ih =>
    intro rng res hok
    rw [negRelLoop] at hok
    split at hok
    · rename_i hlen
      cases hok
      refine ⟨hlen, fun e he => ?_⟩
      have hf := List.mem_filter.mp he
      exact ⟨fun hn => mem_np_randint hf.1 hn, by simpa using hf.2⟩
    · exact ih hok

theorem np_choice_ok {pool : List Nat} {size : Nat} {rng : Rng}
    {res : List Nat × Rng} (h : np_choice pool size rng = .ok res) :
    res.1.length = size ∧ ∀ e ∈ res.1, e ∈ pool := by
  rw [np_choice] at h
  split at h
  · exact absurd h (by simp)
  · rename_i hlen
    cases h
    constructor
    · simp
    · intro e he
      simp only [List.mem_map, List.mem_range] at he
      obtain ⟨i, _, rfl⟩ := he
      have hmod : rng.stream (rng.pos + i) % pool.length < pool.length :=
        Nat.mod_lt _ (by omega)
      rw [List.getD_eq_getElem?_getD, List.getElem?_eq_getElem hmod]
      exact List.getElem_mem hmod

theorem mem_np_tile {pool : List Nat} {reps : Nat} {e : Nat}
    (h : e ∈ np_tile pool reps) : e ∈ pool := by
  simp only [np_tile, List.mem_flatten] at h
  obtain ⟨l, hl, he⟩ := h
  rw [List.mem_replicate] at hl
  exact hl.2 ▸ he

theorem padTruncRow_length (maxSteps : Nat) (p : List Nat) :
    (padTruncRow maxSteps p).length = maxSteps := by
  rw [padTruncRow]
  split
  · rename_i hlt
    simp only [List.length_append, List.length_replicate,
      List.length_map] at hlt ⊢
    omega
  · split
    · rename_i hgt
      simp only [List.length_take, List.length_map] at hgt ⊢
      omega
    · rename_i hlt hgt
      simp only [List.length_map] at hlt hgt ⊢
      omega

theorem pathTensorBlock_rows (mc ms : Nat) (sorted : List (List Nat × PyFloat)) :
    (pathTensorBlock mc ms sorted).relPathsT.rows =
      (sorted.take mc).map (fun rp => padTruncRow ms rp.1) ++
        List.replicate (mc - (sorted.take mc).length)
          (List.replicate ms (-1)) := by
  rw [pathTensorBlock]
  split
  · rename_i hlen
    rw [List.length_eq_zero.mp hlen]
    simp
  · simp only []
    split
    · rw [List.length_map]
    · rename_i hne
      rw [not_not, List.length_map] at hne
      rw [hne]
      simp

theorem pathTensorBlock_probs (mc ms : Nat) (sorted : List (List Nat × PyFloat)) :
    (pathTensorBlock mc ms sorted).probs =
      (sorted.take mc).map (·.2) ++
        List.replicate (mc - (sorted.take mc).length) (0 : PyFloat) := by
  rw [pathTensorBlock]
  split
  · rename_i hlen
    rw [List.length_eq_zero.mp hlen]
    simp
  · simp only []
    split
    · rw [List.length_map]
    · rename_i hne
      rw [not_not, List.length_map] at hne
      rw [hne]
      simp

theorem pathTensorBlock_rows_length (mc ms : Nat)
    (sorted : List (List Nat × PyFloat)) :
    (pathTensorBlock mc ms sorted).relPathsT.rows.length = mc := by
  rw [pathTensorBlock_rows]
  simp only [List.length_append, List.length_map, List.length_replicate,
    List.length_take]
  omega

theorem pathTensorBlock_probs_length (mc ms : Nat)
    (sorted : List (List Nat × PyFloat)) :
    (pathTensorBlock mc ms sorted).probs.length = mc := by
  rw [pathTensorBlock_probs]
  simp only [List.length_append, List.length_map, List.length_replicate,
    List.length_take]
  omega

theorem pathTensorBlock_row_lengths (mc ms : Nat)
    (sorted : List (List Nat × PyFloat)) :
    ∀ row ∈ (pathTensorBlock mc ms sorted).relPathsT.rows,
      row.length = ms := by
  rw [pathTensorBlock_rows]
  intro row hrow
  rcases List.mem_append.mp hrow with hrow | hrow
  · obtain ⟨rp, _, rfl⟩ := List.mem_map.mp hrow
    exact padTruncRow_length ms rp.1
  · rw [(List.mem_replicate.mp hrow).2]
    exact List.length_replicate ms _

theorem pathTensorBlock_dtype_eq (mc ms : Nat)
    (sorted : List (List Nat × PyFloat)) :
    (pathTensorBlock mc ms sorted).relPathsT.dtype =
      if sorted.length = 0 then DType.float32 else DType.int64 := by
  rw [pathTensorBlock]
  split <;> simp_all

theorem ordInsertDesc_length (x : List Nat × PyFloat)
    (l : List (List Nat × PyFloat)) :
    (ordInsertDesc x l).length = l.length + 1 := by
  induction l with
  | nil => rfl
  | cons y ys ih =>
    rw [ordInsertDesc]
    split
    · rfl
    · simp [ih]

theorem sortRelPaths_length (l : List (List Nat × PyFloat)) :
    (sortRelPaths l).length = l.length := by
  induction l with
  | nil => rfl
  | cons x xs ih =>
    show (ordInsertDesc x (sortRelPaths xs)).length = xs.length + 1
    rw [ordInsertDesc_length, ih]

theorem posPairDispatch_ok {cfg : TrainCfg} {relation : Nat} {rng : Rng}
    {res : List Nat × Rng} (h : posPairDispatch cfg relation rng = .ok res) :
    res.1.length = cfg.pairSize ∧
      ((cfg.mode = "head-batch" ∧
          ∀ e ∈ res.1, e ∈ rel_head cfg.triples relation) ∨
       (cfg.mode = "tail-batch" ∧
          ∀ e ∈ res.1, e ∈ rel_tail cfg.triples relation)) := by
  rw [posPairDispatch] at h
  split at h
  · rename_i hmode
    split at h
    · have hc := np_choice_ok h
      exact ⟨hc.1, Or.inl ⟨hmode, fun e he => mem_np_tile (hc.2 e he)⟩⟩
    · have hc := np_choice_ok h
      exact ⟨hc.1, Or.inl ⟨hmode, hc.2⟩⟩
  · split at h
    · rename_i hmode
      split at h
      · have hc := np_choice_ok h
        exact ⟨hc.1, Or.inr ⟨hmode, fun e he => mem_np_tile (hc.2 e he)⟩⟩
      · have hc := np_choice_ok h
        exact ⟨hc.1, Or.inr ⟨hmode, hc.2⟩⟩
    · exact absurd h (by simp)

theorem np_choice_const {x : Nat} {pool : List Nat} {size : Nat} {rng : Rng}
    {res : List Nat × Rng} (hpool : ∀ e ∈ pool, e = x)
    (h : np_choice pool size rng = .ok res) :
    res.1 = List.replicate size x := by
  have hc := np_choice_ok h
  rw [List.eq_replicate_iff]
  exact ⟨hc.1, fun b hb => hpool b (hc.2 b hb)⟩

theorem multiBlock_ok_some {cfg : TrainCfg} {idx relation fuel : Nat}
    {rng : Rng} {mp : MultiPathCfg} {res : Option (PathBlock × List Nat) × Rng}
    (hmp : cfg.multiPath = some mp)
    (h : multiBlock cfg idx relation fuel rng = .ok res) :
    ∃ cand sr, mp.pathProbs[idx]? = some cand ∧
      negRelLoop cfg.nrelation (relation :: weakPositive cand) fuel rng =
        .ok sr ∧
      res.1 = some
        (pathTensorBlock mp.maxNCand mp.maxSteps
          (sortRelPaths (relPathsWithRel mp.pathConfidence relation cand)),
        sr.1.take 1) := by
  rw [multiBlock] at h
  split at h
  · rename_i heq
    rw [hmp] at heq
    exact absurd heq (by simp)
  · rename_i mp' heq
    rw [hmp] at heq
    obtain rfl : mp = mp' := by injection heq
    split at h
    · exact absurd h (by simp)
    · rename_i cand hcand
      obtain ⟨sr, hsr, hres⟩ := PyResult.bind_eq_ok h
      cases hres
      exact ⟨cand, sr, hcand, hsr, rfl⟩

theorem multiBlock_ok_none {cfg : TrainCfg} {idx relation fuel : Nat}
    {rng : Rng} {res : Option (PathBlock × List Nat) × Rng}
    (hmp : cfg.multiPath = none)
    (h : multiBlock cfg idx relation fuel rng = .ok res) :
    res = (none, rng) := by
  rw [multiBlock] at h
  split at h
  · cases h
    rfl
  · rename_i mp' heq
    rw [hmp] at heq
    exact absurd heq (by simp)

/-- Inversion of a successful `trainGetitem` run into its stages. -/
theorem trainGetitem_ok {cfg : TrainCfg} {idx fuel : Nat} {rng : Rng}
    {item : TrainItem} (h : trainGetitem cfg idx fuel rng = .ok item) :
    ∃ pos c1 c2 s1 s2 negAll s3 negPairAll s4,
      cfg.triples[idx]? = some pos ∧
      count_frequency cfg.triples 4 (fKey1 pos) = some c1 ∧
      count_frequency cfg.triples 4 (fKey2 pos) = some c2 ∧
      negSampleLoop cfg.triples cfg.nentity cfg.negSize cfg.mode
        pos.1 pos.2.1 pos.2.2 fuel [] 0 rng = .ok s1 ∧
      multiBlock cfg idx pos.2.1 fuel s1.2 = .ok s2 ∧
      npConcat s1.1 = .ok negAll ∧
      negPairLoop cfg.triples cfg.nentity cfg.pairSize cfg.mode
        pos.2.1 fuel [] 0 s2.2 = .ok s3 ∧
      npConcat s3.1 = .ok negPairAll ∧
      posPairDispatch cfg pos.2.1 s3.2 = .ok s4 ∧
      item =
        { positive := pos
          negatives := negAll.take cfg.negSize
          subsamplingCount := c1 + c2
          mode := cfg.mode
          posPairs := s4.1
          negPairs := negPairAll.take cfg.pairSize
          negRelation := s2.1.map (·.2)
          relPaths := s2.1.map (·.1.relPathsT)
          probs := s2.1.map (·.1.probs) } := by
  rw [trainGetitem] at h
  split at h
  · exact absurd h (by simp)
  · rename_i pos hpos
    split at h
    · rename_i c1 c2 hc1 hc2
      obtain ⟨s1, hs1, h⟩ := PyResult.bind_eq_ok h
      obtain ⟨s2, hs2, h⟩ := PyResult.bind_eq_ok h
      obtain ⟨negAll, hna, h⟩ := PyResult.bind_eq_ok h
      obtain ⟨s3, hs3, h⟩ := PyResult.bind_eq_ok h
      obtain ⟨negPairAll, hnpa, h⟩ := PyResult.bind_eq_ok h
      obtain ⟨s4, hs4, h⟩ := PyResult.bind_eq_ok h
      cases h
      exact ⟨pos, c1, c2, s1, s2, negAll, s3, negPairAll, s4,
        hpos, hc1, hc2, hs1, hs2, hna, hs3, hnpa, hs4, rfl⟩
    · exact absurd h (by simp)

/-! ### properties of `testTmp` and of the alternating iterator -/

theorem testTmp_head_length (allTrue : List Triple) (nentity h r t : Nat) :
    (testTmp allTrue nentity "head-batch" (h, r, t)).length = nentity := by
  rw [testTmp, if_pos rfl]
  simp

theorem testTmp_tail_length (allTrue : List Triple) (nentity h r t : Nat) :
    (testTmp allTrue nentity "tail-batch" (h, r, t)).length = nentity := by
  rw [testTmp, if_neg (by decide)]
  simp

theorem testTmp_head_self (allTrue : List Triple) (nentity h r t : Nat)
    (hh : h < nentity) :
    (testTmp allTrue nentity "head-batch" (h, r, t))[h]? =
      some (0, (h : Int)) := by
  rw [testTmp, if_pos rfl]
  exact List.getElem?_set_self (by simpa using hh)

theorem testTmp_tail_self (allTrue : List Triple) (nentity h r t : Nat)
    (ht : t < nentity) :
    (testTmp allTrue nentity "tail-batch" (h, r, t))[t]? =
      some (0, (t : Int)) := by
  rw [testTmp, if_neg (by decide)]
  exact List.getElem?_set_self (by simpa using ht)

theorem testTmp_head_ne (allTrue : List Triple) (nentity h r t i : Nat)
    (hi : i < nentity) (hne : i ≠ h) :
    (testTmp allTrue nentity "head-batch" (h, r, t))[i]? =
      some (if (i, r, t) ∈ allTrue then ((-1 : Int), (h : Int))
        else (0, (i : Int))) := by
  rw [testTmp, if_pos rfl]
  rw [List.getElem?_set_ne (fun hx => hne hx.symm)]
  rw [List.getElem?_map, List.getElem?_range hi]
  rfl

theorem testTmp_tail_ne (allTrue : List Triple) (nentity h r t i : Nat)
    (hi : i < nentity) (hne : i ≠ t) :
    (testTmp allTrue nentity "tail-batch" (h, r, t))[i]? =
      some (if (h, r, i) ∈ allTrue then ((-1 : Int), (t : Int))
        else (0, (i : Int))) := by
  rw [testTmp, if_neg (by decide)]
  rw [List.getElem?_set_ne (fun hx => hne hx.symm)]
  rw [List.getElem?_map, List.getElem?_range hi]
  rfl

theorem pullsTo_eq {α : Type} (hd tl : List α) (hh : hd ≠ []) (ht : tl ≠ [])
    (n : Nat) :
    pullsTo hd tl n = some ⟨hd, tl, n, n / 2, (n + 1) / 2⟩ := by
  induction n with
  | zero => rfl
  | succ n ih =>
    rw [pullsTo, ih, Option.some_bind, BiIter.next]
    by_cases hpar : (n + 1) % 2 = 0
    · rw [if_pos hpar]
      have hl : 0 < hd.length := List.length_pos.mpr hh
      rw [List.getElem?_eq_getElem (Nat.mod_lt _ hl)]
      show some (BiIter.mk hd tl (n + 1) (n / 2 + 1) ((n + 1) / 2)) =
        some (BiIter.mk hd tl (n + 1) ((n + 1) / 2) ((n + 1 + 1) / 2))
      simp only [Option.some.injEq, BiIter.mk.injEq]
      refine ⟨trivial, trivial, trivial, by omega, by omega⟩
    · rw [if_neg hpar]
      have hl : 0 < tl.length := List.length_pos.mpr ht
      rw [List.getElem?_eq_getElem (Nat.mod_lt _ hl)]
      show some (BiIter.mk hd tl (n + 1) (n / 2) ((n + 1) / 2 + 1)) =
        some (BiIter.mk hd tl (n + 1) ((n + 1) / 2) ((n + 1 + 1) / 2))
      simp only [Option.some.injEq, BiIter.mk.injEq]
      refine ⟨trivial, trivial, trivial, by omega, by omega⟩

theorem nthPull_eq {α : Type} (hd tl : List α) (hh : hd ≠ []) (ht : tl ≠ [])
    (n : Nat) (hn : 1 ≤ n) :
    nthPull hd tl n =
      if n % 2 = 1 then tl[(n / 2) % tl.length]?
      else hd[(n / 2 - 1) % hd.length]? := by
  cases n with
  | zero => omega
  | succ m =>
    rw [nthPull, pullsTo_eq hd tl hh ht m, Option.some_bind, BiIter.next]
    by_cases hpar : (m + 1) % 2 = 0
    · rw [if_pos hpar, if_neg (by omega)]
      have hl : 0 < hd.length := List.length_pos.mpr hh
      have hidx : m / 2 = (m + 1) / 2 - 1 := by omega
      rw [hidx, List.getElem?_eq_getElem (Nat.mod_lt _ hl)]
      rfl
    · rw [if_neg hpar, if_pos (by omega)]
      have hl : 0 < tl.length := List.length_pos.mpr ht
      rw [List.getElem?_eq_getElem (Nat.mod_lt _ hl)]
      rfl

/-! ### concrete inputs used by counterexamples and witnesses -/

/-- The identity random stream. -/
def idStream : Nat → Nat := fun n => n

/-- A finitely-specified random stream (0 beyond the listed prefix). -/
def streamC4 : Nat → Nat := fun n => [0, 1, 1, 3, 3, 3, 0, 1, 0].getD n 0

/-- One-fact dataset, no path evidence. -/
def cfg1 : TrainCfg :=
  { triples := [(0, 0, 1)], nentity := 2, nrelation := 1, negSize := 1,
    pairSize := 1, mode := "tail-batch", multiPath := none }

/-- Two path candidates: `[0]` with probability 9/10 (reliability
900/100000 after the confidence floor) and `[1]` with probability 1/2
(reliability 100/20000). -/
def candC4 : List (List Nat × PyFloat) := [([0], ⟨9, 10⟩), ([1], ⟨1, 2⟩)]

/-- Path-evidence bundle keeping only the best candidate
(`max_n_cand = 1`): the path `[1]` is dropped by the reliability sort,
the path `[0]` is kept. -/
def mpC4 : MultiPathCfg :=
  { pathProbs := [candC4], pathConfidence := [], maxNCand := 1,
    maxSteps := 1 }

/-- One-fact dataset carrying `mpC4` as its path evidence. -/
def cfgC4 : TrainCfg :=
  { triples := [(0, 2, 1)], nentity := 2, nrelation := 4, negSize := 1,
    pairSize := 1, mode := "tail-batch", multiPath := some mpC4 }

/-- Same dataset as `cfgC4` but with an empty candidate list, driving the
zero-candidate (float tensor) branch of the path block. -/
def cfgF : TrainCfg :=
  { triples := [(0, 2, 1)], nentity := 2, nrelation := 4, negSize := 1,
    pairSize := 1, mode := "tail-batch",
    multiPath := some
      { pathProbs := [[]], pathConfidence := [], maxNCand := 1,
        maxSteps := 1 } }

/-- One-fact dataset whose relation-0 head pool is the singleton `{5}`,
with `pair_sample_size = 3`. -/
def cfg5 : TrainCfg :=
  { triples := [(5, 0, 5)], nentity := 6, nrelation := 1, negSize := 1,
    pairSize := 3, mode := "head-batch", multiPath := none }

/-- A dataset configured with an unrecognised mode string. -/
def cfg8 : TrainCfg :=
  { triples := [(0, 0, 1)], nentity := 2, nrelation := 1, negSize := 1,
    pairSize := 1, mode := "wrong", multiPath := none }

/-- The item produced by `trainGetitem cfg1 0 5 ⟨idStream, 0⟩`. -/
def item1 : TrainItem :=
  { positive := (0, 0, 1), negatives := [0], subsamplingCount := 8,
    mode := "tail-batch", posPairs := [1], negPairs := [0],
    negRelation := none, relPaths := none, probs := none }

/-- The item produced by `trainGetitem cfg5 0 9 ⟨idStream, 0⟩`. -/
def item5 : TrainItem :=
  { positive := (5, 0, 5), negatives := [0], subsamplingCount := 8,
    mode := "head-batch", posPairs := [5, 5, 5], negPairs := [2, 3, 4],
    negRelation := none, relPaths := none, probs := none }

/-- The item produced by `trainGetitem cfgF 0 9 ⟨streamC4, 0⟩` (its path
tensor comes from the `torch.zeros(...) - 1` branch: float dtype). -/
def itemF : TrainItem :=
  { positive := (0, 2, 1), negatives := [0], subsamplingCount := 8,
    mode := "tail-batch", posPairs := [1], negPairs := [0],
    negRelation := some [1], relPaths := some ⟨.float32, [[-1]]⟩,
    probs := some [0] }

/-- The item produced by `trainGetitem cfgC4 0 9 ⟨streamC4, 0⟩` (its path
tensor comes from the `torch.LongTensor` branch: int64 dtype). -/
def itemL : TrainItem :=
  { positive := (0, 2, 1), negatives := [0], subsamplingCount := 8,
    mode := "tail-batch", posPairs := [1], negPairs := [0],
    negRelation := some [3], relPaths := some ⟨.int64, [[0]]⟩,
    probs := some [⟨900, 100000⟩] }

/-- Projection: the negative relation of a successful `__getitem__`. -/
def negRelationOf : PyResult TrainItem → Option (List Nat)
  | .ok it => it.negRelation
  | _ => none

/-- Projection: the first surviving id of a negative-relation loop run. -/
def firstSurvOf : PyResult (List Nat × Rng) → Option Nat
  | .ok s => (s.1.take 1).head?
  | _ => none

/-- Modelled from the spec claim (C4): the exclusion set built from the
KEPT paths only — the at-most `max_n_cand` candidates retained after the
reliability sort — plus the true relation.  (The source instead builds
`weak_positive` from ALL candidates before sorting.) -/
def claimKeptExclusion (conf : List ((String × Nat) × PyFloat))
    (relation maxNCand : Nat) (cand : List (List Nat × PyFloat)) : List Nat :=
  relation ::
    weakPositive ((sortRelPaths (relPathsWithRel conf relation cand)).take
      maxNCand)

/-! ### the claims -/

/-- C7: `count_frequency` maps a key to the start floor 4 on its first
occurrence and adds 1 per subsequent occurrence (a key occurring `n ≥ 1`
times maps to `4 + n - 1`; an unseen key is absent), where a fact
`(h, r, t)` contributes the keys `(h, r)` and `(t, -r-1)`; in the
concrete scenario `[(0,0,1),(1,0,2),(2,1,0)]` the key `(0,0)` occurs
exactly once — fact `(2,1,0)` contributes `(0,-2)`, not `(0,0)` — so its
count is 4. -/
theorem C7_count_frequency_floor :
    (∀ (triples : List Triple) (k : Int × Int),
      count_frequency triples 4 k =
        if keyOcc triples k = 0 then none
        else some (4 + keyOcc triples k - 1)) ∧
    count_frequency [(0, 0, 1), (1, 0, 2), (2, 1, 0)] 4 (0, 0) = some 4 ∧
    keyOcc [(0, 0, 1), (1, 0, 2), (2, 1, 0)] (0, 0) = 1 ∧
    fKey2 (2, 1, 0) = (0, -2) :=
  ⟨fun triples k => count_frequency_eq 4 triples k, by decide, by decide,
    by decide⟩

/-- C9: for every relation present in at least one fact, the head and
tail pools built by `get_relation2headtail` contain that fact's head and
tail respectively, hence are non-empty, and hold no duplicates. -/
theorem C9_relation_pools {triples : List Triple} {h r t : Nat}
    (hm : (h, r, t) ∈ triples) :
    h ∈ rel_head triples r ∧ t ∈ rel_tail triples r ∧
    rel_head triples r ≠ [] ∧ rel_tail triples r ≠ [] ∧
    (rel_head triples r).Nodup ∧ (rel_tail triples r).Nodup := by
  have hh : h ∈ rel_head triples r := mem_rel_head.mpr ⟨t, hm⟩
  have ht : t ∈ rel_tail triples r := mem_rel_tail.mpr ⟨h, hm⟩
  exact ⟨hh, ht, List.ne_nil_of_mem hh, List.ne_nil_of_mem ht,
    List.nodup_dedup _, List.nodup_dedup _⟩

theorem C9_witness :
    ((1, 0, 2) : Triple) ∈ [((1, 0, 2) : Triple)] ∧
    (1 ∈ rel_head [((1, 0, 2) : Triple)] 0 ∧
      2 ∈ rel_tail [((1, 0, 2) : Triple)] 0 ∧
      rel_head [((1, 0, 2) : Triple)] 0 ≠ [] ∧
      rel_tail [((1, 0, 2) : Triple)] 0 ≠ [] ∧
      (rel_head [((1, 0, 2) : Triple)] 0).Nodup ∧
      (rel_tail [((1, 0, 2) : Triple)] 0).Nodup) :=
  ⟨by decide, C9_relation_pools (by decide)⟩

/-- C2 counterexample: with the head-side source holding only the batch
10 and the tail-side source holding only the batch 20, the FIRST pull of
the alternating iterator yields 20, i.e. it comes from the tail-side
source, refuting "odd pulls come from the head-side source" (on the
first pull `step` becomes 1, which is odd, and the code pulls from the
head iterator only when `step` is even). -/
theorem C2_counterexample :
    nthPull [10] [20] 1 = some 20 ∧ (20 : Nat) ≠ 10 ∧
    nthPull [10] [20] 2 = some 10 := by decide

/-- C2 amended: for non-empty sources every pull is defined (each side
cycles its finite source, so exhaustion never surfaces), and the n-th
pull comes from the TAIL-side source when n is odd and from the
head-side source when n is even. -/
theorem C2_alternating_stream {α : Type} (hd tl : List α) (hh : hd ≠ [])
    (ht : tl ≠ []) (n : Nat) (hn : 1 ≤ n) :
    (n % 2 = 1 → nthPull hd tl n = tl[(n / 2) % tl.length]?) ∧
    (n % 2 = 0 → nthPull hd tl n = hd[(n / 2 - 1) % hd.length]?) ∧
    (nthPull hd tl n).isSome = true := by
  have he := nthPull_eq hd tl hh ht n hn
  refine ⟨fun hodd => by rw [he, if_pos hodd],
    fun heven => by rw [he, if_neg (by omega)], ?_⟩
  rw [he]
  split
  · have hl : 0 < tl.length := List.length_pos.mpr ht
    rw [List.getElem?_eq_getElem (Nat.mod_lt _ hl)]
    rfl
  · have hl : 0 < hd.length := List.length_pos.mpr hh
    rw [List.getElem?_eq_getElem (Nat.mod_lt _ hl)]
    rfl

theorem C2_witness :
    (([7, 8] : List Nat) ≠ [] ∧ ([9] : List Nat) ≠ [] ∧ 1 ≤ 3) ∧
    ((3 % 2 = 1 → nthPull [7, 8] [9] 3 = [9][(3 / 2) % 1]?) ∧
      (3 % 2 = 0 → nthPull [7, 8] [9] 3 = [7, 8][(3 / 2 - 1) % 2]?) ∧
      (nthPull [7, 8] [9] 3).isSome = true) :=
  ⟨⟨by decide, by decide, by decide⟩,
    C2_alternating_stream [7, 8] [9] (by decide) (by decide) 3 (by decide)⟩

/-- C3 counterexample: for fact `(0,0,1)` with true facts
`{(0,0,1),(2,0,1)}`, `nentity = 3`, head-batch mode, the entry at
candidate index 2 is `(-1, 0)`: its entity component is the TRUE head 0,
not the candidate 2 itself, refuting "entity_i is the candidate i
itself" for filtered entries. -/
theorem C3_counterexample :
    testTmp [(0, 0, 1), (2, 0, 1)] 3 "head-batch" (0, 0, 1) =
      [(0, 0), (0, 1), (-1, 0)] ∧
    ((-1 : Int), (0 : Int)).2 ≠ (2 : Int) := by decide

/-- C3 amended: the entry at the true answer's index is forced to
`(0, answer)`; every other index `i` carries flag `-1` exactly when
substituting `i` gives a known-true fact (necessarily distinct from the
positive fact since `i` differs from the answer), flag `0` otherwise —
but the entity stored in a flagged entry is the TRUE answer entity, not
the candidate `i`; unflagged entries store the candidate itself. -/
theorem C3_test_item_entries (allTrue : List Triple) (nentity h r t : Nat)
    (hh : h < nentity) (ht : t < nentity) :
    (testTmp allTrue nentity "head-batch" (h, r, t)).length = nentity ∧
    (testTmp allTrue nentity "head-batch" (h, r, t))[h]? =
      some (0, (h : Int)) ∧
    (∀ i, i < nentity → i ≠ h →
      (testTmp allTrue nentity "head-batch" (h, r, t))[i]? =
        some (if (i, r, t) ∈ allTrue then ((-1 : Int), (h : Int))
          else (0, (i : Int)))) ∧
    (testTmp allTrue nentity "tail-batch" (h, r, t)).length = nentity ∧
    (testTmp allTrue nentity "tail-batch" (h, r, t))[t]? =
      some (0, (t : Int)) ∧
    (∀ i, i < nentity → i ≠ t →
      (testTmp allTrue nentity "tail-batch" (h, r, t))[i]? =
        some (if (h, r, i) ∈ allTrue then ((-1 : Int), (t : Int))
          else (0, (i : Int)))) ∧
    testGetitem allTrue nentity "head-batch" (h, r, t) =
      .ok { positive := (h, r, t),
            negativeSample :=
              (testTmp allTrue nentity "head-batch" (h, r, t)).map (·.2),
            filterBias :=
              (testTmp allTrue nentity "head-batch" (h, r, t)).map (·.1),
            mode := "head-batch" } := by
  refine ⟨testTmp_head_length allTrue nentity h r t,
    testTmp_head_self allTrue nentity h r t hh,
    fun i hi hne => testTmp_head_ne allTrue nentity h r t i hi hne,
    testTmp_tail_length allTrue nentity h r t,
    testTmp_tail_self allTrue nentity h r t ht,
    fun i hi hne => testTmp_tail_ne allTrue nentity h r t i hi hne, ?_⟩
  rw [testGetitem, if_pos (Or.inl rfl)]

theorem C3_witness :
    ((0 : Nat) < 3 ∧ (1 : Nat) < 3) ∧
    ((testTmp [(0, 0, 1), (2, 0, 1)] 3 "head-batch" (0, 0, 1)).length = 3 ∧
      (testTmp [(0, 0, 1), (2, 0, 1)] 3 "head-batch" (0, 0, 1))[(0 : Nat)]? =
        some (0, ((0 : Nat) : Int)) ∧
      (∀ i : Nat, i < 3 → i ≠ 0 →
        (testTmp [(0, 0, 1), (2, 0, 1)] 3 "head-batch" (0, 0, 1))[i]? =
          some (if (i, 0, 1) ∈ [(0, 0, 1), (2, 0, 1)] then
              ((-1 : Int), ((0 : Nat) : Int))
            else (0, (i : Int)))) ∧
      (testTmp [(0, 0, 1), (2, 0, 1)] 3 "tail-batch" (0, 0, 1)).length = 3 ∧
      (testTmp [(0, 0, 1), (2, 0, 1)] 3 "tail-batch" (0, 0, 1))[(1 : Nat)]? =
        some (0, ((1 : Nat) : Int)) ∧
      (∀ i : Nat, i < 3 → i ≠ 1 →
        (testTmp [(0, 0, 1), (2, 0, 1)] 3 "tail-batch" (0, 0, 1))[i]? =
          some (if (0, 0, i) ∈ [(0, 0, 1), (2, 0, 1)] then
              ((-1 : Int), ((1 : Nat) : Int))
            else (0, (i : Int)))) ∧
      testGetitem [(0, 0, 1), (2, 0, 1)] 3 "head-batch" (0, 0, 1) =
        .ok { positive := (0, 0, 1),
              negativeSample :=
                (testTmp [(0, 0, 1), (2, 0, 1)] 3 "head-batch"
                  (0, 0, 1)).map (·.2),
              filterBias :=
                (testTmp [(0, 0, 1), (2, 0, 1)] 3 "head-batch"
                  (0, 0, 1)).map (·.1),
              mode := "head-batch" }) :=
  ⟨⟨by decide, by decide⟩,
    C3_test_item_entries [(0, 0, 1), (2, 0, 1)] 3 0 0 1 (by decide)
      (by decide)⟩

/-- C1: a successful call of `TrainDataset.__getitem__` returns exactly
`negative_sample_size` entity negatives, each in `[0, nentity)`, and
none of them completes a known-true fact under the item's mode
(head-batch: `(e, r, t)` is never a fact; tail-batch: `(h, r, e)` is
never a fact). -/
theorem C1_negative_samples {cfg : TrainCfg} {idx fuel : Nat} {rng : Rng}
    {item : TrainItem} (hok : trainGetitem cfg idx fuel rng = .ok item)
    (hne : 0 < cfg.nentity) :
    item.negatives.length = cfg.negSize ∧
    (∀ e ∈ item.negatives, e < cfg.nentity) ∧
    (cfg.mode = "head-batch" → ∀ e ∈ item.negatives,
      (e, item.positive.2.1, item.positive.2.2) ∉ cfg.triples) ∧
    (cfg.mode = "tail-batch" → ∀ e ∈ item.negatives,
      (item.positive.1, item.positive.2.1, e) ∉ cfg.triples) := by
  obtain ⟨pos, c1, c2, s1, s2, negAll, s3, negPairAll, s4, hpos, hc1, hc2,
    hs1, hs2, hna, hs3, hnpa, hs4, hitem⟩ := trainGetitem_ok hok
  obtain ⟨hloopLen, hloopMem⟩ := negSampleLoop_ok hs1 (by simp)
  obtain ⟨hnil, hflat⟩ := npConcat_ok hna
  subst hitem
  subst hflat
  refine ⟨?_, ?_, ?_, ?_⟩
  · show (s1.1.flatten.take cfg.negSize).length = cfg.negSize
    rw [List.length_take]
    omega
  · intro e he
    have he' : e ∈ s1.1.flatten := List.take_subset _ _ he
    rcases hloopMem e he' with hin | ⟨hlt, _⟩
    · simp at hin
    · exact hlt hne
  · intro hmode e he
    have he' : e ∈ s1.1.flatten := List.take_subset _ _ he
    rcases hloopMem e he' with hin | ⟨_, hdisj⟩
    · simp at hin
    rcases hdisj with ⟨_, hnth⟩ | ⟨hmt, _⟩
    · exact fun hcontra => hnth (mem_true_head.mpr hcontra)
    · rw [hmode] at hmt
      exact absurd hmt (by decide)
  · intro hmode e he
    have he' : e ∈ s1.1.flatten := List.take_subset _ _ he
    rcases hloopMem e he' with hin | ⟨_, hdisj⟩
    · simp at hin
    rcases hdisj with ⟨hmh, _⟩ | ⟨_, hntl⟩
    · rw [hmode] at hmh
      exact absurd hmh (by decide)
    · exact fun hcontra => hntl (mem_true_tail.mpr hcontra)

theorem C1_witness :
    trainGetitem cfg1 0 5 ⟨idStream, 0⟩ = .ok item1 ∧ 0 < cfg1.nentity ∧
    (item1.negatives.length = cfg1.negSize ∧
      (∀ e ∈ item1.negatives, e < cfg1.nentity) ∧
      (cfg1.mode = "head-batch" → ∀ e ∈ item1.negatives,
        (e, item1.positive.2.1, item1.positive.2.2) ∉ cfg1.triples) ∧
      (cfg1.mode = "tail-batch" → ∀ e ∈ item1.negatives,
        (item1.positive.1, item1.positive.2.1, e) ∉ cfg1.triples)) :=
  ⟨by decide, by decide,
    @C1_negative_samples cfg1 0 5 ⟨idStream, 0⟩ item1 (by decide)
      (by decide)⟩

/-- C5: the positive-pair sample of a successful `__getitem__` has
exactly `pair_sample_size` entries, each a member of the relation's
entity pool on the mode's side; with a singleton pool `[5]` and
`pair_sample_size = 3` the sample is exactly `[5, 5, 5]` (the pool is
tiled `pair_sample_size` times before drawing, so every draw hits 5). -/
theorem C5_positive_pairs {cfg : TrainCfg} {idx fuel : Nat} {rng : Rng}
    {item : TrainItem} (hok : trainGetitem cfg idx fuel rng = .ok item) :
    item.posPairs.length = cfg.pairSize ∧
    (cfg.mode = "head-batch" → ∀ e ∈ item.posPairs,
      e ∈ rel_head cfg.triples item.positive.2.1) ∧
    (cfg.mode = "tail-batch" → ∀ e ∈ item.posPairs,
      e ∈ rel_tail cfg.triples item.positive.2.1) ∧
    (cfg.mode = "head-batch" →
      rel_head cfg.triples item.positive.2.1 = [5] → cfg.pairSize = 3 →
      item.posPairs = [5, 5, 5]) ∧
    (cfg.mode = "tail-batch" →
      rel_tail cfg.triples item.positive.2.1 = [5] → cfg.pairSize = 3 →
      item.posPairs = [5, 5, 5]) := by
  obtain ⟨pos, c1, c2, s1, s2, negAll, s3, negPairAll, s4, hpos, hc1, hc2,
    hs1, hs2, hna, hs3, hnpa, hs4, hitem⟩ := trainGetitem_ok hok
  subst hitem
  obtain ⟨hlen, hdisj⟩ := posPairDispatch_ok hs4
  refine ⟨hlen, ?_, ?_, ?_, ?_⟩
  · intro hmode e he
    rcases hdisj with ⟨_, hm⟩ | ⟨hmt, _⟩
    · exact hm e he
    · rw [hmode] at hmt
      exact absurd hmt (by decide)
  · intro hmode e he
    rcases hdisj with ⟨hmh, _⟩ | ⟨_, hm⟩
    · rw [hmode] at hmh
      exact absurd hmh (by decide)
    · exact hm e he
  · intro hmode hpool hk
    have hpool' : rel_head cfg.triples pos.2.1 = [5] := hpool
    rw [posPairDispatch, if_pos hmode, hpool', hk] at hs4
    rw [if_pos (by decide)] at hs4
    have hrep : s4.1 = List.replicate 3 5 :=
      np_choice_const (fun e he => by simpa using mem_np_tile he) hs4
    show s4.1 = [5, 5, 5]
    rw [hrep]
    decide
  · intro hmode hpool hk
    have hpool' : rel_tail cfg.triples pos.2.1 = [5] := hpool
    rw [posPairDispatch, if_neg (by rw [hmode]; decide), if_pos hmode,
      hpool', hk] at hs4
    rw [if_pos (by decide)] at hs4
    have hrep : s4.1 = List.replicate 3 5 :=
      np_choice_const (fun e he => by simpa using mem_np_tile he) hs4
    show s4.1 = [5, 5, 5]
    rw [hrep]
    decide

theorem C5_witness :
    trainGetitem cfg5 0 9 ⟨idStream, 0⟩ = .ok item5 ∧
    cfg5.mode = "head-batch" ∧
    rel_head cfg5.triples item5.positive.2.1 = [5] ∧ cfg5.pairSize = 3 ∧
    (item5.posPairs.length = cfg5.pairSize ∧
      (cfg5.mode = "head-batch" → ∀ e ∈ item5.posPairs,
        e ∈ rel_head cfg5.triples item5.positive.2.1) ∧
      (cfg5.mode = "tail-batch" → ∀ e ∈ item5.posPairs,
        e ∈ rel_tail cfg5.triples item5.positive.2.1) ∧
      (cfg5.mode = "head-batch" →
        rel_head cfg5.triples item5.positive.2.1 = [5] →
        cfg5.pairSize = 3 → item5.posPairs = [5, 5, 5]) ∧
      (cfg5.mode = "tail-batch" →
        rel_tail cfg5.triples item5.positive.2.1 = [5] →
        cfg5.pairSize = 3 → item5.posPairs = [5, 5, 5])) :=
  ⟨by decide, by decide, by decide, by decide,
    @C5_positive_pairs cfg5 0 9 ⟨idStream, 0⟩ item5 (by decide)⟩

/-- C6: when path evidence is enabled, a successful `__getitem__` hands
back exactly the path block built from the sorted candidates: the tensor
has exactly `max_n_cand` rows of exactly `max_steps` entries and the
reliability array has exactly `max_n_cand` entries, for every candidate
count; kept rows are the truncated/right-padded (-1) sorted candidates,
missing rows are all -1 with reliability 0, and the zero-candidate case
yields the all -1 tensor with all-zero reliabilities. -/
theorem C6_path_tensor_shape {cfg : TrainCfg} {idx fuel : Nat} {rng : Rng}
    {item : TrainItem} {mp : MultiPathCfg} {cand : List (List Nat × PyFloat)}
    {B : PathBlock} (hok : trainGetitem cfg idx fuel rng = .ok item)
    (hmp : cfg.multiPath = some mp)
    (hcand : mp.pathProbs[idx]? = some cand)
    (hB : B = pathTensorBlock mp.maxNCand mp.maxSteps
        (sortRelPaths (relPathsWithRel mp.pathConfidence
          item.positive.2.1 cand))) :
    item.relPaths = some B.relPathsT ∧ item.probs = some B.probs ∧
    B.relPathsT.rows.length = mp.maxNCand ∧
    (∀ row ∈ B.relPathsT.rows, row.length = mp.maxSteps) ∧
    B.probs.length = mp.maxNCand ∧
    B.relPathsT.rows =
      ((sortRelPaths (relPathsWithRel mp.pathConfidence
          item.positive.2.1 cand)).take mp.maxNCand).map
        (fun rp => padTruncRow mp.maxSteps rp.1) ++
      List.replicate
        (mp.maxNCand -
          ((sortRelPaths (relPathsWithRel mp.pathConfidence
            item.positive.2.1 cand)).take mp.maxNCand).length)
        (List.replicate mp.maxSteps (-1)) ∧
    B.probs =
      ((sortRelPaths (relPathsWithRel mp.pathConfidence
          item.positive.2.1 cand)).take mp.maxNCand).map (·.2) ++
      List.replicate
        (mp.maxNCand -
          ((sortRelPaths (relPathsWithRel mp.pathConfidence
            item.positive.2.1 cand)).take mp.maxNCand).length) (0 : PyFloat) ∧
    (cand = [] →
      B.relPathsT.rows =
        List.replicate mp.maxNCand (List.replicate mp.maxSteps (-1)) ∧
      B.probs = List.replicate mp.maxNCand 0) := by
  obtain ⟨pos, c1, c2, s1, s2, negAll, s3, negPairAll, s4, hpos, hc1, hc2,
    hs1, hs2, hna, hs3, hnpa, hs4, hitem⟩ := trainGetitem_ok hok
  obtain ⟨cand', sr, hcand', hsr, hres1⟩ := multiBlock_ok_some hmp hs2
  have hcc : cand' = cand := by
    rw [hcand] at hcand'
    exact (Option.some.inj hcand').symm
  subst hcc
  subst hB
  subst hitem
  refine ⟨?_, ?_,
    pathTensorBlock_rows_length _ _ _, pathTensorBlock_row_lengths _ _ _,
    pathTensorBlock_probs_length _ _ _, pathTensorBlock_rows _ _ _,
    pathTensorBlock_probs _ _ _, ?_⟩
  · show Option.map (·.1.relPathsT) s2.1 = _
    rw [hres1]
    rfl
  · show Option.map (·.1.probs) s2.1 = _
    rw [hres1]
    rfl
  · intro hcand0
    subst hcand0
    have hsorted : sortRelPaths
        (relPathsWithRel mp.pathConfidence pos.2.1 []) = [] := by
      rw [relPathsWithRel, List.map_nil, sortRelPaths]
      rfl
    constructor
    · show (pathTensorBlock mp.maxNCand mp.maxSteps
          (sortRelPaths
            (relPathsWithRel mp.pathConfidence pos.2.1 []))).relPathsT.rows =
        _
      rw [pathTensorBlock_rows, hsorted]
      simp
    · show (pathTensorBlock mp.maxNCand mp.maxSteps
          (sortRelPaths
            (relPathsWithRel mp.pathConfidence pos.2.1 []))).probs = _
      rw [pathTensorBlock_probs, hsorted]
      simp

theorem C6_witness :
    trainGetitem cfgC4 0 9 ⟨streamC4, 0⟩ = .ok itemL ∧
    cfgC4.multiPath = some mpC4 ∧ mpC4.pathProbs[(0 : Nat)]? = some candC4 ∧
    (⟨⟨.int64, [[0]]⟩, [⟨900, 100000⟩]⟩ : PathBlock) =
      pathTensorBlock mpC4.maxNCand mpC4.maxSteps
        (sortRelPaths (relPathsWithRel mpC4.pathConfidence
          itemL.positive.2.1 candC4)) ∧
    (itemL.relPaths = some (⟨⟨.int64, [[0]]⟩, [⟨900, 100000⟩]⟩ : PathBlock).relPathsT ∧
      itemL.probs = some (⟨⟨.int64, [[0]]⟩, [⟨900, 100000⟩]⟩ : PathBlock).probs ∧
      (⟨⟨.int64, [[0]]⟩, [⟨900, 100000⟩]⟩ : PathBlock).relPathsT.rows.length =
        mpC4.maxNCand ∧
      (∀ row ∈ (⟨⟨.int64, [[0]]⟩, [⟨900, 100000⟩]⟩ : PathBlock).relPathsT.rows,
        row.length = mpC4.maxSteps) ∧
      (⟨⟨.int64, [[0]]⟩, [⟨900, 100000⟩]⟩ : PathBlock).probs.length =
        mpC4.maxNCand ∧
      (⟨⟨.int64, [[0]]⟩, [⟨900, 100000⟩]⟩ : PathBlock).relPathsT.rows =
        ((sortRelPaths (relPathsWithRel mpC4.pathConfidence
            itemL.positive.2.1 candC4)).take mpC4.maxNCand).map
          (fun rp => padTruncRow mpC4.maxSteps rp.1) ++
        List.replicate
          (mpC4.maxNCand -
            ((sortRelPaths (relPathsWithRel mpC4.pathConfidence
              itemL.positive.2.1 candC4)).take mpC4.maxNCand).length)
          (List.replicate mpC4.maxSteps (-1)) ∧
      (⟨⟨.int64, [[0]]⟩, [⟨900, 100000⟩]⟩ : PathBlock).probs =
        ((sortRelPaths (relPathsWithRel mpC4.pathConfidence
            itemL.positive.2.1 candC4)).take mpC4.maxNCand).map (·.2) ++
        List.replicate
          (mpC4.maxNCand -
            ((sortRelPaths (relPathsWithRel mpC4.pathConfidence
              itemL.positive.2.1 candC4)).take mpC4.maxNCand).length)
          (0 : PyFloat) ∧
      (candC4 = [] →
        (⟨⟨.int64, [[0]]⟩, [⟨900, 100000⟩]⟩ : PathBlock).relPathsT.rows =
          List.replicate mpC4.maxNCand
            (List.replicate mpC4.maxSteps (-1)) ∧
        (⟨⟨.int64, [[0]]⟩, [⟨900, 100000⟩]⟩ : PathBlock).probs =
          List.replicate mpC4.maxNCand 0)) :=
  ⟨by decide, by decide, by decide, by decide,
    @C6_path_tensor_shape cfgC4 0 9 ⟨streamC4, 0⟩ itemL mpC4 candC4
      ⟨⟨.int64, [[0]]⟩, [⟨900, 100000⟩]⟩ (by decide) (by decide) (by decide)
      (by decide)⟩

/-- C4 counterexample: with two candidates of which only the path `[0]`
is kept (`max_n_cand = 1`), and random relation draws `[1,3,3,3]`, the
code returns relation 3 — relation 1 appears only in the DROPPED path
yet is still excluded, because line 73 collects `weak_positive` from ALL
candidates before sorting — whereas the procedure the claim describes
(exclusion = kept-path relations plus the true relation) would return 1
from the same draws: 1 is not in the claimed kept-only exclusion set. -/
theorem C4_counterexample :
    negRelationOf (trainGetitem cfgC4 0 9 ⟨streamC4, 0⟩) = some [3] ∧
    firstSurvOf (negRelLoop cfgC4.nrelation
        (claimKeptExclusion [] 2 1 candC4) 9 ⟨streamC4, 2⟩) = some 1 ∧
    (3 : Nat) ≠ 1 ∧
    (1 : Nat) ∈ weakPositive candC4 ∧
    (1 : Nat) ∉ claimKeptExclusion [] 2 1 candC4 := by decide

/-- C4 amended: when path evidence is enabled, the exclusion set is the
set of relation ids appearing in ALL candidate paths of the example
(kept or dropped) plus the true relation; the sampler repeatedly draws 4
uniform relation ids, removes those in the exclusion set, retries with 4
fresh ids whenever zero survive, and returns exactly the first surviving
id — so the returned array holds exactly one id, in `[0, nrelation)`,
different from the true relation and from every candidate-path
relation. -/
theorem C4_negative_relation {cfg : TrainCfg} {idx fuel : Nat} {rng : Rng}
    {item : TrainItem} {mp : MultiPathCfg} {cand : List (List Nat × PyFloat)}
    (hok : trainGetitem cfg idx fuel rng = .ok item)
    (hmp : cfg.multiPath = some mp)
    (hcand : mp.pathProbs[idx]? = some cand) (hnr : 0 < cfg.nrelation) :
    ∃ l, item.negRelation = some l ∧ l.length = 1 ∧
      ∀ e ∈ l, e < cfg.nrelation ∧ e ≠ item.positive.2.1 ∧
        e ∉ weakPositive cand := by
  obtain ⟨pos, c1, c2, s1, s2, negAll, s3, negPairAll, s4, hpos, hc1, hc2,
    hs1, hs2, hna, hs3, hnpa, hs4, hitem⟩ := trainGetitem_ok hok
  obtain ⟨cand', sr, hcand', hsr, hres1⟩ := multiBlock_ok_some hmp hs2
  have hcc : cand' = cand := by
    rw [hcand] at hcand'
    exact (Option.some.inj hcand').symm
  subst hcc
  obtain ⟨hsrlen, hsrmem⟩ := negRelLoop_ok hsr
  subst hitem
  refine ⟨sr.1.take 1, ?_, ?_, ?_⟩
  · show Option.map (·.2) s2.1 = some (sr.1.take 1)
    rw [hres1]
    rfl
  · rw [List.length_take]
    omega
  · intro e he
    have he' : e ∈ sr.1 := List.take_subset _ _ he
    obtain ⟨hlt, hnot⟩ := hsrmem e he'
    rw [List.mem_cons] at hnot
    push_neg at hnot
    exact ⟨hlt hnr, hnot.1, hnot.2⟩

theorem C4_witness :
    trainGetitem cfgC4 0 9 ⟨streamC4, 0⟩ = .ok itemL ∧
    cfgC4.multiPath = some mpC4 ∧ mpC4.pathProbs[(0 : Nat)]? = some candC4 ∧
    0 < cfgC4.nrelation ∧
    (∃ l, itemL.negRelation = some l ∧ l.length = 1 ∧
      ∀ e ∈ l, e < cfgC4.nrelation ∧ e ≠ itemL.positive.2.1 ∧
        e ∉ weakPositive candC4) :=
  ⟨by decide, by decide, by decide, by decide,
    @C4_negative_relation cfgC4 0 9 ⟨streamC4, 0⟩ itemL mpC4 candC4
      (by decide) (by decide) (by decide) (by decide)⟩

/-- With a positive `negative_sample_size` and at least one unit of fuel,
the entity-negative loop's mode dispatch raises the mode `ValueError` on
the first iteration for any unrecognised mode, and it propagates out of
`__getitem__`. -/
theorem trainGetitem_raises_invalid {cfg : TrainCfg} {idx fuel : Nat}
    {rng : Rng} {pos : Triple} (hpos : cfg.triples[idx]? = some pos)
    (hm1 : cfg.mode ≠ "head-batch") (hm2 : cfg.mode ≠ "tail-batch")
    (hneg : 0 < cfg.negSize) (hf : 0 < fuel) :
    trainGetitem cfg idx fuel rng =
      .raises ("Training batch mode " ++ cfg.mode ++ " not supported") := by
  have hmem : pos ∈ cfg.triples := by
    obtain ⟨hlt, he⟩ := List.getElem?_eq_some_iff.mp hpos
    exact he ▸ List.getElem_mem hlt
  obtain ⟨c1, hc1⟩ :=
    Option.isSome_iff_exists.mp (count_frequency_fKey1_isSome hmem)
  obtain ⟨c2, hc2⟩ :=
    Option.isSome_iff_exists.mp (count_frequency_fKey2_isSome hmem)
  rw [trainGetitem]
  simp only [hpos]
  simp only [hc1, hc2]
  rw [negSampleLoop_raises_invalid hm1 hm2 hneg hf]
  rfl

/-- C8: with any mode string other than "head-batch" and "tail-batch",
`TrainDataset.__getitem__` never returns a value for any configured
`negative_sample_size` including 0 — with a positive size it raises the
mode `ValueError` on the first loop iteration, with size 0 every
terminating run still ends in a `ValueError` (the empty
`np.concatenate` of line 119, since the mode loop contributed no
arrays) — and `TestDataset.__getitem__` raises its mode `ValueError`
immediately; nothing is retried. -/
theorem C8_invalid_mode {cfg : TrainCfg} {idx fuel : Nat} {rng : Rng}
    {pos : Triple} (hpos : cfg.triples[idx]? = some pos)
    (hm1 : cfg.mode ≠ "head-batch") (hm2 : cfg.mode ≠ "tail-batch")
    (allTrue : List Triple) (nentity : Nat) (tr : Triple) :
    (trainGetitem cfg idx fuel rng).isOk = false ∧
    (0 < cfg.negSize → 0 < fuel →
      trainGetitem cfg idx fuel rng =
        .raises ("Training batch mode " ++ cfg.mode ++ " not supported")) ∧
    testGetitem allTrue nentity cfg.mode tr =
      .raises ("negative batch mode " ++ cfg.mode ++ " not supported") := by
  refine ⟨?_,
    fun hneg hf => trainGetitem_raises_invalid hpos hm1 hm2 hneg hf, ?_⟩
  · cases hres : trainGetitem cfg idx fuel rng with
    | ok item =>
      exfalso
      obtain ⟨pos', c1, c2, s1, s2, negAll, s3, negPairAll, s4, hpos', hc1,
        hc2, hs1, hs2, hna, hs3, hnpa, hs4, hitem⟩ := trainGetitem_ok hres
      have hempty : s1.1 = [] := negSampleLoop_ok_invalid hm1 hm2 hs1
      exact (npConcat_ok hna).1 hempty
    | raises m => rfl
    | diverge => rfl
  · rw [testGetitem, if_neg (by rintro (h | h); exacts [hm1 h, hm2 h])]

theorem C8_witness :
    cfg8.triples[(0 : Nat)]? = some (0, 0, 1) ∧
    cfg8.mode ≠ "head-batch" ∧ cfg8.mode ≠ "tail-batch" ∧
    ((trainGetitem cfg8 0 1 ⟨idStream, 0⟩).isOk = false ∧
      (0 < cfg8.negSize → 0 < 1 →
        trainGetitem cfg8 0 1 ⟨idStream, 0⟩ =
          .raises
            ("Training batch mode " ++ cfg8.mode ++ " not supported")) ∧
      testGetitem [] 0 cfg8.mode (0, 0, 0) =
        .raises
          ("negative batch mode " ++ cfg8.mode ++ " not supported")) :=
  ⟨by decide, by decide, by decide,
    @C8_invalid_mode cfg8 0 1 ⟨idStream, 0⟩ (0, 0, 1) (by decide)
      (by decide) (by decide) [] 0 (0, 0, 0)⟩

/-- C10: the element dtype of the per-example path tensor depends on the
candidate count — zero candidates give the float tensor
`torch.zeros(max_n_cand, max_steps) - 1`, one or more candidates give an
int64 `torch.LongTensor` — and the `torch.stack` of
`collate_fn_multi_path` over a batch mixing both kinds fails. -/
theorem C10_path_dtype :
    (∀ (cfg : TrainCfg) (idx fuel : Nat) (rng : Rng) (item : TrainItem)
        (mp : MultiPathCfg) (cand : List (List Nat × PyFloat)),
      trainGetitem cfg idx fuel rng = .ok item →
      cfg.multiPath = some mp → mp.pathProbs[idx]? = some cand →
      item.relPaths = some (pathTensorBlock mp.maxNCand mp.maxSteps
          (sortRelPaths (relPathsWithRel mp.pathConfidence
            item.positive.2.1 cand))).relPathsT ∧
      (pathTensorBlock mp.maxNCand mp.maxSteps
          (sortRelPaths (relPathsWithRel mp.pathConfidence
            item.positive.2.1 cand))).relPathsT.dtype =
        (if cand = [] then DType.float32 else DType.int64)) ∧
    (∀ (i1 i2 : TrainItem) (T1 T2 : PyTensor2),
      i1.relPaths = some T1 → i2.relPaths = some T2 →
      T1.dtype ≠ T2.dtype →
      collateRelPaths [i1, i2] =
        .raises "stack expects each tensor to be equal dtype") := by
  constructor
  · intro cfg idx fuel rng item mp cand hok hmp hcand
    obtain ⟨pos, c1, c2, s1, s2, negAll, s3, negPairAll, s4, hpos, hc1, hc2,
      hs1, hs2, hna, hs3, hnpa, hs4, hitem⟩ := trainGetitem_ok hok
    obtain ⟨cand', sr, hcand', hsr, hres1⟩ := multiBlock_ok_some hmp hs2
    have hcc : cand' = cand := by
      rw [hcand] at hcand'
      exact (Option.some.inj hcand').symm
    subst hcc
    subst hitem
    constructor
    · show Option.map (·.1.relPathsT) s2.1 = _
      rw [hres1]
      rfl
    · rw [pathTensorBlock_dtype_eq, sortRelPaths_length, relPathsWithRel,
        List.length_map]
      simp only [List.length_eq_zero]
  · intro i1 i2 T1 T2 h1 h2 hne
    have hne' : ¬T2.dtype = T1.dtype := fun h => hne h.symm
    have hmm : List.mapM (fun x : TrainItem => x.relPaths) [i1, i2] =
        some [T1, T2] := by
      rw [List.mapM_cons, List.mapM_cons, List.mapM_nil, h1, h2]
      rfl
    rw [collateRelPaths, hmm]
    show torchStack2 [T1, T2] = _
    simp [torchStack2, hne']

theorem C10_witness :
    trainGetitem cfgF 0 9 ⟨streamC4, 0⟩ = .ok itemF ∧
    trainGetitem cfgC4 0 9 ⟨streamC4, 0⟩ = .ok itemL ∧
    itemF.relPaths = some ⟨.float32, [[-1]]⟩ ∧
    itemL.relPaths = some ⟨.int64, [[0]]⟩ ∧
    DType.float32 ≠ DType.int64 ∧
    collateRelPaths [itemF, itemL] =
      .raises "stack expects each tensor to be equal dtype" :=
  ⟨by decide, by decide, by decide, by decide, by decide,
    C10_path_dtype.2 itemF itemL ⟨.float32, [[-1]]⟩ ⟨.int64, [[0]]⟩
      (by decide) (by decide) (by decide)⟩

end AutoETER
